import Mathlib

/-!
# Verification of the sheet-header reconciliation reader

Shallow embedding of the two diagnostic scripts `check_headers.py` and
`check_sheet_structure.py`.  Remote fetches are modelled as a function
`FetchFn` from a sheet name to either an error message (a raised
exception) or the API result; the API result's optional `values` key is
an `Option (List Row)`.  The console output of each sheet loop is
modelled as the list of structured reports it prints, in print order.
-/

namespace BotJanWeb

/-- A Row: ordered sequence of string cell values (trailing empty cells
are omitted by the remote API, so a row may be shorter than the queried
column span). -/
abbrev Row := List String

/-- HeaderEntry: (column index, column letter, cell value). -/
abbrev HeaderEntry := Nat × Char × String

/-- The column letter of a 0-based column index: Python's `chr(65 + i)`
as used in `check_headers.py` line 14 and `check_sheet_structure.py`
lines 47 and 53. -/
def colLetter (i : Nat) : Char := Char.ofNat (65 + i)

/-- `for i, h in enumerate(headers)` pairing each cell with its index
(starting from `n`) and derived column letter. -/
def decodeFrom (n : Nat) : Row → List HeaderEntry
  | [] => []
  | h :: t => (n, colLetter n, h) :: decodeFrom (n + 1) t

/-- Decoding a header row: one `(index, chr(65+index), value)` entry per
cell, indices from 0, as printed by the `enumerate` loops in both
scripts. -/
def decodeHeaders (row : Row) : List HeaderEntry := decodeFrom 0 row

/-- A remote fetch for a sheet name: `.error e` models a raised
exception, `.ok v` a successful `execute()` whose result dict has
`values` key `v` (absent keys modelled by `none`). -/
abbrev FetchFn := String → Except String (Option (List Row))

/-- `result.get('values', [[]])[0] if result.get('values') else []` from
`check_headers.py` line 9: the first row when the `values` key is
present and non-empty, else the empty row. -/
def extractHeaders : Option (List Row) → Row
  | some (r :: _) => r
  | some [] => []
  | none => []

/-- The sheet loop of `check_headers.py` (no try/except): fetch each
sheet in order, print its decoded headers; a raised exception leaves the
loop at once.  Result: the reports printed before the failure, and the
propagated exception if one was raised. -/
def checkHeadersLoop (fetch : FetchFn) :
    List String → List (String × List HeaderEntry) × Option String
  | [] => ([], none)
  | s :: rest =>
    match fetch s with
    | .error e => ([], some e)
    | .ok v =>
      let out := checkHeadersLoop fetch rest
      ((s, decodeHeaders (extractHeaders v)) :: out.1, out.2)

/-- One printed block of the first loop of `check_sheet_structure.py`:
either a per-sheet report (row 1 and row 2 decodings, each present only
when the fetched `rows` list is long enough) or the caught-exception
diagnostic `"Error reading {sheet_name}: {e}"`. -/
inductive SOut where
  | report (sheet : String) (row1 row2 : Option (List HeaderEntry))
  | fetchError (sheet : String) (msg : String)
deriving DecidableEq

/-- The sheet name a block of output is about. -/
def SOut.sheet : SOut → String
  | .report s _ _ => s
  | .fetchError s _ => s

/-- The body of the first `for sheet_name in sheets_to_check` loop of
`check_sheet_structure.py`: fetch `'{sheet_name}'!A1:Z2`, take
`rows = result.get('values', [])`, decode row 1 when `len(rows) >= 1`
and row 2 when `len(rows) >= 2` (each guarded by
`rows[k] if len(rows[k]) > 0 else []`); the `except Exception` arm
prints the diagnostic with the sheet name and the exception. -/
def inspectSheet (fetch : FetchFn) (s : String) : SOut :=
  match fetch s with
  | .error e => .fetchError s e
  | .ok v =>
    let rows := v.getD []
    match rows with
    | [] => .report s none none
    | [r1] => .report s (some (decodeHeaders (if r1.length > 0 then r1 else []))) none
    | r1 :: r2 :: _ =>
      .report s (some (decodeHeaders (if r1.length > 0 then r1 else [])))
        (some (decodeHeaders (if r2.length > 0 then r2 else [])))

/-- The first sheet loop of `check_sheet_structure.py`: every sheet is
processed inside try/except, so each produces exactly one output block
and iteration always continues. -/
def checkStructureLoop (fetch : FetchFn) (sheets : List String) : List SOut :=
  sheets.map (inspectSheet fetch)

/-- The sheet lists hard-coded in both scripts. -/
def sheets_to_check : List String := ["Gemini", "ChatGPT", "YouTube", "Perplexity"]

/-- Number of single-letter columns spanned by a range from column
`a` to column `b` (both single letters). -/
def colSpan (a b : Char) : Nat := b.toNat - a.toNat + 1

/-- A concrete fetch whose read of "Gemini" raises while "YouTube"
would succeed, for exercising the failure path of the loops. -/
def failGeminiFetch : FetchFn := fun s =>
  if s = "Gemini" then .error "HttpError 400" else .ok (some [["Name", "Date"]])

/-! ## General lemmas about the decoder and the loops -/

theorem decodeFrom_length (n : Nat) (row : Row) :
    (decodeFrom n row).length = row.length := by
  induction row generalizing n with
  | nil => rfl
  | cons h t ih => simp [decodeFrom, ih]

theorem decodeHeaders_length (row : Row) :
    (decodeHeaders row).length = row.length :=
  decodeFrom_length 0 row

theorem decodeFrom_getElem? (n : Nat) (row : Row) (i : Nat) :
    (decodeFrom n row)[i]? =
      (row[i]?).map fun v => (n + i, colLetter (n + i), v) := by
  induction row generalizing n i with
  | nil => simp [decodeFrom]
  | cons h t ih =>
    cases i with
    | zero => simp [decodeFrom]
    | succ j =>
      simp only [decodeFrom, List.getElem?_cons_succ, ih (n + 1) j]
      have : n + 1 + j = n + (j + 1) := by omega
      rw [this]

theorem decodeHeaders_getElem? (row : Row) (i : Nat) :
    (decodeHeaders row)[i]? = (row[i]?).map fun v => (i, colLetter i, v) := by
  have := decodeFrom_getElem? 0 row i
  simpa [decodeHeaders] using this

theorem inspectSheet_sheet (fetch : FetchFn) (s : String) :
    (inspectSheet fetch s).sheet = s := by
  unfold inspectSheet
  rcases fetch s with e | v
  · rfl
  · rcases v with _ | rows
    · rfl
    · rcases rows with _ | ⟨r1, _ | ⟨r2, rs⟩⟩ <;> rfl

theorem structureLoop_sheets (fetch : FetchFn) (sheets : List String) :
    (checkStructureLoop fetch sheets).map SOut.sheet = sheets := by
  induction sheets with
  | nil => rfl
  | cons s rest ih =>
    simp only [checkStructureLoop, List.map_cons] at ih ⊢
    exact congrArg₂ _ (inspectSheet_sheet fetch s) ih

theorem headersLoop_sheets (fetch : FetchFn) (sheets : List String) :
    (checkHeadersLoop fetch sheets).1.map Prod.fst =
      sheets.takeWhile fun s => (fetch s).isOk := by
  induction sheets with
  | nil => rfl
  | cons s rest ih =>
    unfold checkHeadersLoop
    cases hf : fetch s with
    | error e => simp [List.takeWhile, hf, Except.isOk, Except.toBool]
    | ok v => simp [List.takeWhile, hf, Except.isOk, Except.toBool, ih]

theorem structureLoop_reports_failure (fetch : FetchFn) (sheets : List String)
    (s : String) (e : String) (hs : s ∈ sheets) (hf : fetch s = .error e) :
    SOut.fetchError s e ∈ checkStructureLoop fetch sheets := by
  have : inspectSheet fetch s = SOut.fetchError s e := by
    unfold inspectSheet; rw [hf]
  exact this ▸ List.mem_map_of_mem (inspectSheet fetch) hs

theorem colLetter_in_alphabet : ∀ i < 26, 'A' ≤ colLetter i ∧ colLetter i ≤ 'Z' := by
  decide

theorem mem_decodeHeaders {row : Row} {e : HeaderEntry} (he : e ∈ decodeHeaders row) :
    e.1 < row.length ∧ e.2.1 = colLetter e.1 := by
  rw [List.mem_iff_getElem?] at he
  obtain ⟨i, hi⟩ := he
  rw [decodeHeaders_getElem?] at hi
  obtain ⟨v, hv, hfv⟩ := Option.map_eq_some'.mp hi
  have hlt : i < row.length := by
    by_contra hge
    rw [List.getElem?_eq_none (Nat.le_of_not_lt hge)] at hv
    exact Option.noConfusion hv
  subst hfv
  exact ⟨hlt, rfl⟩

theorem takeWhile_eq_take_len (p : String → Bool) (l : List String) :
    ∃ k, l.takeWhile p = l.take k := by
  induction l with
  | nil => exact ⟨0, rfl⟩
  | cons a t ih =>
    cases h : p a with
    | true =>
      obtain ⟨k, hk⟩ := ih
      exact ⟨k + 1, by simp [List.takeWhile_cons, h, hk]⟩
    | false => exact ⟨0, by simp [List.takeWhile_cons, h]⟩

/-! ## The claims -/

/-- C1 (counterexample): the claim fails on the sheet loop of
`check_headers.py`, which has no try/except: with a fetch that raises
on "Gemini" but would succeed on "YouTube", the loop reports nothing
for "YouTube" — the first failure aborts inspection of the remaining
sheets. -/
theorem C1_counterexample :
    "YouTube" ∉ (checkHeadersLoop failGeminiFetch ["Gemini", "YouTube"]).1.map Prod.fst := by
  decide

/-- C1 (amended): in `check_sheet_structure.py`, whose loop body is
wrapped in try/except, every sheet of the list yields exactly one
report in order even when fetches fail; in `check_headers.py`, whose
loop has no handler, the reported sheets are exactly the longest
initial run of the list on which every fetch succeeds — a failure
aborts the remaining sheets. -/
theorem C1_amended_spec (fetch : FetchFn) (sheets : List String) :
    ((checkStructureLoop fetch sheets).map SOut.sheet = sheets) ∧
    ((checkHeadersLoop fetch sheets).1.map Prod.fst =
      sheets.takeWhile fun s => (fetch s).isOk) :=
  ⟨structureLoop_sheets fetch sheets, headersLoop_sheets fetch sheets⟩

/-- C2 (counterexample): the claim fails on the sheet loop of
`check_headers.py`: with a fetch that raises on "Gemini", the exception
propagates past the loop (the loop's propagated-error component is
`some "HttpError 400"`, not `none`) and no diagnostic block is printed. -/
theorem C2_counterexample :
    (checkHeadersLoop failGeminiFetch ["Gemini", "YouTube"]).2 = some "HttpError 400" ∧
    (checkHeadersLoop failGeminiFetch ["Gemini", "YouTube"]).1 = [] := by
  constructor <;> rfl

/-- C2 (amended): in `check_sheet_structure.py` a sheet whose fetch
raises yields the caught-and-printed diagnostic carrying the sheet name
and the underlying cause, inside the loop's total output (nothing
propagates past the loop); in `check_headers.py` the exception is
uncaught and propagates past the loop. -/
theorem C2_amended_spec (fetch : FetchFn) (sheets : List String) (s e : String)
    (hs : s ∈ sheets) (hf : fetch s = .error e) :
    SOut.fetchError s e ∈ checkStructureLoop fetch sheets :=
  structureLoop_reports_failure fetch sheets s e hs hf

/-- Witness for C2's amended theorem: the diagnostic for "Gemini" with
its cause appears in the structure loop's output over the hard-coded
sheet list. -/
theorem C2_witness :
    SOut.fetchError "Gemini" "HttpError 400" ∈
      checkStructureLoop failGeminiFetch sheets_to_check :=
  C2_amended_spec failGeminiFetch sheets_to_check "Gemini" "HttpError 400"
    (by decide) rfl

/-- C3: for every column index below 26, `colLetter` is `chr(65+index)`,
this agrees with the alphabet position (0 maps to 'A', 1 to 'B', ...),
and the mapping is injective over that range. -/
theorem C3_spec :
    (∀ i < 26, colLetter i = Char.ofNat (65 + i)) ∧
    (∀ i < 26, ("ABCDEFGHIJKLMNOPQRSTUVWXYZ".toList)[i]? = some (colLetter i)) ∧
    (∀ i < 26, ∀ j < 26, colLetter i = colLetter j → i = j) := by
  refine ⟨fun i _ => rfl, ?_, ?_⟩ <;> decide

/-- Witness for C3: index 0 decodes to 'A' and index 25 to 'Z'. -/
theorem C3_witness :
    ("ABCDEFGHIJKLMNOPQRSTUVWXYZ".toList)[0]? = some (colLetter 0) ∧
    ("ABCDEFGHIJKLMNOPQRSTUVWXYZ".toList)[25]? = some (colLetter 25) :=
  ⟨C3_spec.2.1 0 (by decide), C3_spec.2.1 25 (by decide)⟩

/-- C4: `decodeHeaders` is total over every Row, the empty Row yields
the empty entry list, a fetch result with no `values` key decodes as the
empty Row, and a short row yields exactly one entry per present cell
(fewer entries than the column span is representable, not an error). -/
theorem C4_spec :
    decodeHeaders ([] : Row) = [] ∧
    extractHeaders none = ([] : Row) ∧
    decodeHeaders (extractHeaders (some [])) = [] ∧
    ∀ row : Row, (decodeHeaders row).length = row.length :=
  ⟨rfl, rfl, rfl, decodeHeaders_length⟩

/-- C5: the row `["Name", "Date", "", "Status"]` decodes to exactly
`[(0,'A',"Name"), (1,'B',"Date"), (2,'C',""), (3,'D',"Status")]` — the
empty interior cell keeps its own entry in place. -/
theorem C5_spec :
    decodeHeaders ["Name", "Date", "", "Status"] =
      [(0, 'A', "Name"), (1, 'B', "Date"), (2, 'C', ""), (3, 'D', "Status")] := by
  decide

/-- C6: the column letter at a given position is the same for any two
rows (hence any two sheets and any cell contents): it is a pure function
of the position. -/
theorem C6_spec (r1 r2 : Row) (i : Nat) (h1 : i < r1.length) (h2 : i < r2.length) :
    ((decodeHeaders r1)[i]?).map (fun e => e.2.1) = some (colLetter i) ∧
    ((decodeHeaders r2)[i]?).map (fun e => e.2.1) = some (colLetter i) := by
  constructor <;>
  · rw [decodeHeaders_getElem?, List.getElem?_eq_getElem (by assumption)]
    rfl

/-- Witness for C6: position 0 of two different rows with different
contents carries the same letter. -/
theorem C6_witness :
    ((decodeHeaders ["Name"])[0]?).map (fun e => e.2.1) = some (colLetter 0) ∧
    ((decodeHeaders ["X", "Y"])[0]?).map (fun e => e.2.1) = some (colLetter 0) :=
  C6_spec ["Name"] ["X", "Y"] 0 (by decide) (by decide)

/-- C7: both loops process the caller-supplied list strictly in order:
the structure loop's reports name the sheets in exactly the input
order, and the headers loop's reports name an initial segment of the
input list in input order (each fetch is consumed before the next sheet
is touched, a failure ending the run). -/
theorem C7_spec (fetch : FetchFn) (sheets : List String) :
    ((checkStructureLoop fetch sheets).map SOut.sheet = sheets) ∧
    ∃ k, (checkHeadersLoop fetch sheets).1.map Prod.fst = sheets.take k := by
  refine ⟨structureLoop_sheets fetch sheets, ?_⟩
  rw [headersLoop_sheets]
  exact takeWhile_eq_take_len _ sheets

/-- C8: decoding the same Row twice yields identical output — the
result depends only on the row's contents, with no hidden state between
calls. -/
theorem C8_spec (r1 r2 : Row) (h : r1 = r2) :
    decodeHeaders r1 = decodeHeaders r2 :=
  congrArg decodeHeaders h

/-- Witness for C8: two decodings of the same concrete row agree. -/
theorem C8_witness : decodeHeaders ["Name", "Date"] = decodeHeaders ["Name", "Date"] :=
  C8_spec ["Name", "Date"] ["Name", "Date"] rfl

/-- C9: indices 0-25 give letters in 'A'-'Z'; the decoder applies
`chr(65+index)` unconditionally, so index 26 gives the non-letter
character following 'Z'; the queried spans (A-Z, A-K, A-J) cover at
most 26 columns, and any row within a 26-column span decodes with every
letter in 'A'-'Z'. -/
theorem C9_spec :
    (∀ i < 26, 'A' ≤ colLetter i ∧ colLetter i ≤ 'Z') ∧
    (∀ i : Nat, colLetter i = Char.ofNat (65 + i)) ∧
    (colLetter 26 = Char.ofNat 91 ∧ ¬('A' ≤ colLetter 26 ∧ colLetter 26 ≤ 'Z')) ∧
    (colSpan 'A' 'Z' = 26 ∧ colSpan 'A' 'K' = 11 ∧ colSpan 'A' 'J' = 10) ∧
    (∀ row : Row, row.length ≤ 26 → ∀ e ∈ decodeHeaders row,
      'A' ≤ e.2.1 ∧ e.2.1 ≤ 'Z') := by
  refine ⟨colLetter_in_alphabet, fun i => rfl, by decide, by decide, ?_⟩
  intro row hlen e he
  obtain ⟨hi, hl⟩ := mem_decodeHeaders he
  rw [hl]
  exact colLetter_in_alphabet e.1 (Nat.lt_of_lt_of_le hi hlen)

/-- Witness for C9: the bounds at indices 0 and 25, and the row-level
bound for a concrete two-cell row. -/
theorem C9_witness :
    ('A' ≤ colLetter 0 ∧ colLetter 0 ≤ 'Z') ∧
    ('A' ≤ colLetter 25 ∧ colLetter 25 ≤ 'Z') ∧
    ('A' ≤ (0, colLetter 0, "Name").2.1 ∧ (0, colLetter 0, "Name").2.1 ≤ 'Z') :=
  ⟨C9_spec.1 0 (by decide), C9_spec.1 25 (by decide),
    C9_spec.2.2.2.2 ["Name", "Date"] (by decide) (0, colLetter 0, "Name") (by decide)⟩

/-- C10: the decoded listing has exactly one entry per cell, and the
entry at output position i carries column index i, the letter of i, and
the row's cell i — indices are consecutive from 0 and cell order is
preserved. -/
theorem C10_spec (row : Row) :
    ((decodeHeaders row).length = row.length) ∧
    ∀ i < row.length,
      (decodeHeaders row)[i]? = (row[i]?).map fun v => (i, colLetter i, v) :=
  ⟨decodeHeaders_length row, fun i _ => decodeHeaders_getElem? row i⟩

/-- Witness for C10: position 1 of a concrete two-cell row carries
index 1. -/
theorem C10_witness :
    ((decodeHeaders ["Name", "Date"]).length = 2) ∧
    (decodeHeaders ["Name", "Date"])[1]? =
      ((["Name", "Date"] : Row)[1]?).map fun v => (1, colLetter 1, v) :=
  ⟨(C10_spec ["Name", "Date"]).1, (C10_spec ["Name", "Date"]).2 1 (by decide)⟩

end BotJanWeb
